import Mathlib

/-!
Shallow embedding of the command-execution and destination-construction layer
of the XcodeMCP repository (src/src/utils/xcode.ts, src/src/utils/build-utils.ts).

JavaScript strings are modelled as Lean `String`/`List Char`; JavaScript numbers
holding progress estimates are modelled as `Rat` (all arithmetic they perform
here is exact on small rationals, so the floating-point representation is not
load-bearing); `Math.floor` of a quotient of naturals is modelled as `Nat`
division.  Optional JavaScript values are `Option`; JavaScript truthiness on an
optional string (undefined or empty string is falsy) is `optTruthy`.  Process
interaction is modelled by an explicit list of stdout/stderr events followed by
one termination (normal close with an exit code, or a spawn error), which is the
contract Node gives the code.
-/

/-- Platform enumeration from src/types/common.ts (re-exported by xcode.ts). -/
inductive XcodePlatform
  | macOS
  | iOS
  | iOSSimulator
  | watchOS
  | watchOSSimulator
  | tvOS
  | tvOSSimulator
  | visionOS
  | visionOSSimulator
deriving DecidableEq, Repr

/-- Modelled from the spec: the string value each enum member interpolates to in
template literals.  The defining file src/types/common.ts is not under src/;
the spec fixes the simulator values via its examples, e.g.
platform=iOS Simulator,id=ABC-123, and the device values via
generic/platform=iOS and platform=macOS. -/
def XcodePlatform.str : XcodePlatform → String
  | .macOS => "macOS"
  | .iOS => "iOS"
  | .iOSSimulator => "iOS Simulator"
  | .watchOS => "watchOS"
  | .watchOSSimulator => "watchOS Simulator"
  | .tvOS => "tvOS"
  | .tvOSSimulator => "tvOS Simulator"
  | .visionOS => "visionOS"
  | .visionOSSimulator => "visionOS Simulator"

/-- The `isSimulatorPlatform` membership test of xcode.ts lines 534-539. -/
def isSimulatorPlatform : XcodePlatform → Bool
  | .iOSSimulator => true
  | .watchOSSimulator => true
  | .tvOSSimulator => true
  | .visionOSSimulator => true
  | _ => false

/-- JavaScript truthiness of a `string | undefined` value: undefined and the
empty string are falsy. -/
def optTruthy : Option String → Bool
  | none => false
  | some s => decide (s ≠ "")

/-- `constructDestinationString` from xcode.ts lines 527-582.  The `throw` on a
simulator platform with neither name nor id becomes `Except.error`; the final
unreachable fallback line 581 is kept as-is. -/
def constructDestinationString (platform : XcodePlatform)
    (simulatorName simulatorId : Option String) (useLatest : Bool)
    (arch : Option String) : Except String String :=
  if isSimulatorPlatform platform && optTruthy simulatorId then
    .ok ("platform=" ++ platform.str ++ ",id=" ++ simulatorId.getD "")
  else if isSimulatorPlatform platform && optTruthy simulatorName then
    .ok ("platform=" ++ platform.str ++ ",name=" ++ simulatorName.getD ""
          ++ (if useLatest then ",OS=latest" else ""))
  else if isSimulatorPlatform platform then
    .error ("Simulator name or ID is required for specific " ++ platform.str
          ++ " operations")
  else
    match platform with
    | .macOS =>
        .ok (if optTruthy arch then "platform=macOS,arch=" ++ arch.getD ""
             else "platform=macOS")
    | .iOS => .ok "generic/platform=iOS"
    | .watchOS => .ok "generic/platform=watchOS"
    | .tvOS => .ok "generic/platform=tvOS"
    | .visionOS => .ok "generic/platform=visionOS"
    | p => .ok ("platform=" ++ p.str)

/-! ## Argument escaping (executeXcodeCommand, xcode.ts lines 72-80) -/

/-- The double-quote character, written by code point to keep source scanning
simple. -/
def dq : Char := Char.ofNat 34

/-- The single-quote character. -/
def sqc : Char := Char.ofNat 39

/-- The backslash character. -/
def bsl : Char := Char.ofNat 92

/-- Membership in the JavaScript regex class backslash-s (whitespace). -/
def isJsWhitespace (c : Char) : Bool :=
  c = ' ' || c = Char.ofNat 9 || c = Char.ofNat 10 || c = Char.ofNat 11
  || c = Char.ofNat 12 || c = Char.ofNat 13
  || c = Char.ofNat 0xa0 || c = Char.ofNat 0x1680
  || (decide (0x2000 ≤ c.toNat) && decide (c.toNat ≤ 0x200a))
  || c = Char.ofNat 0x2028 || c = Char.ofNat 0x2029 || c = Char.ofNat 0x202f
  || c = Char.ofNat 0x205f || c = Char.ofNat 0x3000 || c = Char.ofNat 0xfeff

/-- A JavaScript line terminator: the characters the regex wildcard dot does
not match (without the dotAll flag). -/
def isLineTerm (c : Char) : Bool :=
  c = Char.ofNat 10 || c = Char.ofNat 13 || c = Char.ofNat 0x2028
  || c = Char.ofNat 0x2029

/-- A character matched by the quoting trigger class: whitespace, comma,
double quote, single quote or equals sign. -/
def isSpecialChar (c : Char) : Bool :=
  isJsWhitespace c || c = ',' || c = dq || c = sqc || c = '='

/-- The test of the regex slash-open-bracket-s-comma-quotes-equals on a token:
true iff some character is special. -/
def needsQuotingL (cs : List Char) : Bool := cs.any isSpecialChar

/-- The test of the anchored regex `caret-quote-dot-star-quote-dollar`: the
token starts and ends with a double quote (length at least two) and the
wildcard dot must match every character in between, so no line terminator may
occur there. -/
def isFullyQuotedL (cs : List Char) : Bool :=
  match cs with
  | [] => false
  | c :: rest =>
      decide (c = dq) && decide (1 ≤ rest.length)
      && decide (rest.getLastD ' ' = dq)
      && rest.dropLast.all (fun ch => !(isLineTerm ch))

/-- One step of `arg.replace` with pattern quote-or-backslash and replacement
backslash-dollar-one: a double quote or backslash is preceded by a backslash. -/
def escCharL (c : Char) : List Char :=
  if c = dq || c = bsl then [bsl, c] else [c]

/-- The full replacement over a token body. -/
def escBodyL : List Char → List Char
  | [] => []
  | c :: cs => escCharL c ++ escBodyL cs

/-- The per-token escaping of xcode.ts lines 72-80, on character lists. -/
def escapeArgL (cs : List Char) : List Char :=
  if needsQuotingL cs && !(isFullyQuotedL cs) then dq :: (escBodyL cs ++ [dq])
  else cs

/-- The per-token escaping of xcode.ts lines 72-80 on strings. -/
def escapeArg (s : String) : String := String.mk (escapeArgL s.toList)

/-- The joined shell command string of xcode.ts line 82. -/
def commandStringOf (command : List String) : String :=
  String.intercalate " " (command.map escapeArg)

/-! ## Progress updates and the standard executor (xcode.ts lines 279-448) -/

/-- The status field of a progress update. -/
inductive UpdStatus
  | running
  | completed
  | failed
deriving DecidableEq, Repr

/-- A Progress Update as delivered to the progress sink.  The timestamp field
(an ISO clock string) carries no logic and is omitted. -/
structure ProgressUpdate where
  operationId : String
  status : UpdStatus
  progress : Rat
  message : String
  details : Option String
deriving DecidableEq, Repr

/-- The shape of the value the executor resolves with. -/
structure XcodeCommandResponse where
  success : Bool
  output : String
  error : Option String
deriving DecidableEq, Repr

/-- One observable event of the child process: a stdout or stderr chunk,
tagged with the clock value Date.now() returns while it is handled. -/
inductive StdEvent
  | out (time : Nat) (chunk : String)
  | err (time : Nat) (chunk : String)
deriving DecidableEq, Repr

/-- How the child process run ends: a close event with an exit code, or an
error event because the process could not be started. -/
inductive ProcTerm
  | close (exitCode : Int)
  | spawnError (msg : String)
deriving DecidableEq, Repr

/-- The per-execution mutable locals of executeStandard (xcode.ts 293-304). -/
structure ExecState where
  stdout : String
  stderr : String
  currentPhase : String
  totalFiles : Nat
  processedFiles : Nat
  estimatedProgress : Rat
  lastProgressUpdate : Nat
deriving DecidableEq, Repr

/-- The initial state of one executeStandard call. -/
def initState : ExecState := ⟨"", "", "", 0, 0, 0, 0⟩

/-- `sendProgressUpdate` (xcode.ts 307-323): emits a running update when a
callback is present and either the send is forced or the throttle interval
(1000 ms) has elapsed. -/
def sendProgress (cb : Bool) (opId : String) (now : Nat) (force : Bool)
    (msg : String) (st : ExecState) : List ProgressUpdate × ExecState :=
  if cb && (force || decide (1000 < now - st.lastProgressUpdate)) then
    ([⟨opId, UpdStatus.running, st.estimatedProgress, msg,
        some ("Phase: " ++ (if st.currentPhase = "" then "Preparing"
                            else st.currentPhase))⟩],
     { st with lastProgressUpdate := now })
  else ([], st)

/-- JavaScript substring(0, n) and slice-like truncation, modelled
structurally over the character list. -/
def strTake (s : String) (n : Nat) : String := String.mk (s.toList.take n)

/-- Occurrence of a pattern as a contiguous segment, structurally recursive on
the haystack: the model of `line.includes(phase)`. -/
def hasSubL (pat : List Char) : List Char → Bool
  | [] => pat.isEmpty
  | c :: rest => pat.isPrefixOf (c :: rest) || hasSubL pat rest

/-- Substring containment on strings. -/
def containsSubstr (s pat : String) : Bool := hasSubL pat.toList s.toList

/-- The model of the JavaScript `chunk.split` on a newline separator,
structurally recursive: split at every newline character, keeping empty
segments. -/
def splitNlL : List Char → List (List Char)
  | [] => [[]]
  | c :: rest =>
      if c = Char.ofNat 10 then [] :: splitNlL rest
      else
        match splitNlL rest with
        | [] => [[c]]
        | l :: ls => (c :: l) :: ls

/-- The lines of a stdout chunk. -/
def splitLines (s : String) : List String := (splitNlL s.toList).map String.mk

/-- The for-loop over `buildPhases` with break (xcode.ts 336-363): the first
phase marker contained in the line, together with its index. -/
def findPhase (line : String) : Option (Nat × String) :=
  if containsSubstr line "CompileC" then some (0, "CompileC")
  else if containsSubstr line "CompileSwift" then some (1, "CompileSwift")
  else if containsSubstr line "Linking" then some (2, "Linking")
  else if containsSubstr line "CodeSign" then some (3, "CodeSign")
  else none

/-- Maximal run of ASCII digits at the head of the character list. -/
def takeDigits : List Char → List Char × List Char
  | [] => ([], [])
  | c :: cs =>
      if c.isDigit then
        let r := takeDigits cs
        (c :: r.1, r.2)
      else ([], c :: cs)

/-- Decimal value of a digit run, the model of parseInt with base 10. -/
def digitsToNat (cs : List Char) : Nat :=
  cs.foldl (fun n c => n * 10 + (c.toNat - 48)) 0

/-- Attempt of the regex digits-of-digits-files at one position.  The digit
groups are greedy and each is followed by a non-digit, so no backtracking can
produce a different match. -/
def matchFileAt (cs : List Char) : Option (Nat × Nat) :=
  let r1 := takeDigits cs
  if r1.1.isEmpty then none
  else if (" of ".toList).isPrefixOf r1.2 then
    let r2 := takeDigits (r1.2.drop 4)
    if r2.1.isEmpty then none
    else if (" files".toList).isPrefixOf r2.2 then
      some (digitsToNat r1.1, digitsToNat r2.1)
    else none
  else none

/-- Leftmost match of the N-of-M-files pattern over a character list. -/
def scanFileCount : List Char → Option (Nat × Nat)
  | [] => none
  | c :: cs =>
      match matchFileAt (c :: cs) with
      | some r => some r
      | none => scanFileCount cs

/-- `line.match` of the N-of-M-files regex (xcode.ts 366), with parseInt of the
two capture groups. -/
def fileCountMatch (line : String) : Option (Nat × Nat) :=
  scanFileCount line.toList

/-- The compile-file counting inside the phase branch (xcode.ts 348-358):
increments processedFiles for compilation phases and, when a total is known,
bumps the estimate by a quarter of the completed phase percentage, capped at
95. -/
def compileBump (ph : String) (st : ExecState) : ExecState :=
  if ph = "CompileC" || ph = "CompileSwift" then
    let st1 := { st with processedFiles := st.processedFiles + 1 }
    if 0 < st1.totalFiles then
      let phasePct : Nat := min (st1.processedFiles * 100 / st1.totalFiles) 100
      let newEst : Rat := min (st1.estimatedProgress + (phasePct : Rat) / 4) 95
      { st1 with estimatedProgress := newEst }
    else st1
  else st

/-- The phase-marker branch for one output line (xcode.ts 336-363). -/
def phaseStep (cb : Bool) (opId : String) (now : Nat) (line : String)
    (st : ExecState) : List ProgressUpdate × ExecState :=
  match findPhase line with
  | none => ([], st)
  | some q =>
      let r1 :=
        if st.currentPhase ≠ q.2 then
          sendProgress cb opId now true (q.2 ++ " phase...")
            { st with currentPhase := q.2,
                      estimatedProgress := min ((25 * q.1 : Nat) : Rat) 90 }
        else ([], st)
      let st2 := compileBump q.2 r1.2
      let r2 := sendProgress cb opId now false
          ("Processing: " ++ strTake line 80 ++ "...") st2
      (r1.1 ++ r2.1, r2.2)

/-- The N-of-M-files branch for one output line (xcode.ts 366-375). -/
def fileStep (cb : Bool) (opId : String) (now : Nat) (line : String)
    (st : ExecState) : List ProgressUpdate × ExecState :=
  match fileCountMatch line with
  | none => ([], st)
  | some q =>
      let st1 := { st with processedFiles := q.1, totalFiles := q.2 }
      if 0 < q.2 then
        sendProgress cb opId now true
          ("Processing file " ++ toString q.1 ++ " of " ++ toString q.2)
          { st1 with estimatedProgress := min ((q.1 * 90 / q.2 : Nat) : Rat) 95 }
      else ([], st1)

/-- One line of a stdout chunk: the phase branch then the file-count branch. -/
def processLine (cb : Bool) (opId : String) (now : Nat) (line : String)
    (st : ExecState) : List ProgressUpdate × ExecState :=
  let r1 := phaseStep cb opId now line st
  let r2 := fileStep cb opId now line r1.2
  (r1.1 ++ r2.1, r2.2)

/-- All lines of a stdout chunk, in order. -/
def processLines (cb : Bool) (opId : String) (now : Nat) :
    List String → ExecState → List ProgressUpdate × ExecState
  | [], st => ([], st)
  | line :: rest, st =>
      let r1 := processLine cb opId now line st
      let r2 := processLines cb opId now rest r1.2
      (r1.1 ++ r2.1, r2.2)

/-- The stdout data handler (xcode.ts 325-378): accumulate the chunk, then,
only when a progress callback exists, analyse its newline-separated lines. -/
def processOutChunk (cb : Bool) (opId : String) (now : Nat) (chunk : String)
    (st : ExecState) : List ProgressUpdate × ExecState :=
  let st0 := { st with stdout := st.stdout ++ chunk }
  if cb then processLines cb opId now (splitLines chunk) st0 else ([], st0)

/-- The stderr data handler (xcode.ts 380-390): accumulate the chunk and send a
forced warning update. -/
def processErrChunk (cb : Bool) (opId : String) (now : Nat) (chunk : String)
    (st : ExecState) : List ProgressUpdate × ExecState :=
  let st0 := { st with stderr := st.stderr ++ chunk }
  if cb then sendProgress cb opId now true ("Warning: " ++ strTake chunk 100 ++ "...") st0
  else ([], st0)

/-- Dispatch of one process event. -/
def processEvent (cb : Bool) (opId : String) (st : ExecState) :
    StdEvent → List ProgressUpdate × ExecState
  | .out t chunk => processOutChunk cb opId t chunk st
  | .err t chunk => processErrChunk cb opId t chunk st

/-- All process events of one execution, in delivery order. -/
def processEvents (cb : Bool) (opId : String) (st : ExecState) :
    List StdEvent → List ProgressUpdate × ExecState
  | [] => ([], st)
  | e :: rest =>
      let r1 := processEvent cb opId st e
      let r2 := processEvents cb opId r1.2 rest
      (r1.1 ++ r2.1, r2.2)

/-- The terminal update of the close handler (xcode.ts 397-409). -/
def closeTerminal (cb : Bool) (opId label : String) (ec : Int)
    (st : ExecState) : List ProgressUpdate :=
  if cb then
    if ec = 0 then
      [⟨opId, UpdStatus.completed, 100, label ++ " completed successfully", none⟩]
    else
      [⟨opId, UpdStatus.failed, st.estimatedProgress,
        label ++ " failed with exit code " ++ toString ec,
        some (strTake st.stderr 500)⟩]
  else []

/-- The resolved value of the close handler (xcode.ts 411-424). -/
def closeResponse (label : String) (ec : Int) (st : ExecState) :
    XcodeCommandResponse :=
  if ec = 0 then
    ⟨true,
     if st.stdout = "" then label ++ " operation completed successfully"
     else st.stdout,
     none⟩
  else
    ⟨false, st.stdout,
     some (if st.stderr = "" then
             "Operation failed with exit code " ++ toString ec
               ++ ". No stderr output."
           else st.stderr)⟩

/-- The terminal update of the spawn-error handler (xcode.ts 431-439):
progress is left at 0. -/
def spawnErrTerminal (cb : Bool) (opId label msg : String) :
    List ProgressUpdate :=
  if cb then
    [⟨opId, UpdStatus.failed, 0,
      "Failed to start " ++ label ++ " process: " ++ msg, none⟩]
  else []

/-- The resolved value of the spawn-error handler (xcode.ts 441-445). -/
def spawnErrResponse (msg : String) (st : ExecState) : XcodeCommandResponse :=
  ⟨false, st.stdout, some ("Failed to start process: " ++ msg)⟩

/-- `executeStandard` (xcode.ts 279-448) over an explicit process run: the
emitted progress updates in order, and the response the promise resolves
with.  Exactly one of the close and error handlers fires per run. -/
def executeStandard (label : String) (cb : Bool) (opId : String)
    (events : List StdEvent) (term : ProcTerm) :
    List ProgressUpdate × XcodeCommandResponse :=
  let r := processEvents cb opId initState events
  match term with
  | .close ec => (r.1 ++ closeTerminal cb opId label ec r.2, closeResponse label ec r.2)
  | .spawnError msg =>
      (r.1 ++ spawnErrTerminal cb opId label msg, spawnErrResponse msg r.2)

/-! ## The xcpretty path (executeWithXcpretty, xcode.ts 120-274) -/

/-- The data object xcpretty hands to the onProgress callback. -/
structure XcprettyData where
  phase : Option String
  message : Option String
  fileCount : Option Nat
  fileIndex : Option Nat
deriving DecidableEq, Repr

/-- The per-call locals of executeWithXcpretty (xcode.ts 129-133). -/
structure XpState where
  currentPhase : String
  estimatedProgress : Rat
  lastProgressUpdate : Nat
deriving DecidableEq, Repr

/-- Initial xcpretty-path state: phase Preparing, progress 0. -/
def xpInit : XpState := ⟨"Preparing", 0, 0⟩

/-- The phase switch of xcode.ts 168-184: known phases map to fixed progress
values, unknown phases keep the current value. -/
def xpPhasePct (ph : String) (cur : Rat) : Rat :=
  if ph = "Clean" then 5
  else if ph = "Compile" then 25
  else if ph = "Link" then 75
  else if ph = "Copy" || ph = "CodeSign" then 90
  else cur

/-- One onProgress delivery (xcode.ts 160-211).  The whole body is guarded on
the presence of the progress callback; field truthiness follows JavaScript
(missing, empty string, and zero are falsy). -/
def xpProcessData (cb : Bool) (opId : String) (now : Nat) (d : XcprettyData)
    (st : XpState) : List ProgressUpdate × XpState :=
  if cb then
    let st1 :=
      match d.phase with
      | some p =>
          if p ≠ "" then
            { st with currentPhase := p,
                      estimatedProgress := xpPhasePct p st.estimatedProgress }
          else st
      | none => st
    let st2 :=
      match d.fileCount, d.fileIndex with
      | some c, some i =>
          if 0 < c && 0 < i then
            let pct : Rat := min ((i * 100 / c : Nat) : Rat) 95
            { st1 with estimatedProgress := pct }
          else st1
      | _, _ => st1
    if decide (1000 < now - st2.lastProgressUpdate) then
      let msg :=
        match d.message with
        | some m => if m ≠ "" then m else "Processing " ++ st2.currentPhase ++ "..."
        | none => "Processing " ++ st2.currentPhase ++ "..."
      ([⟨opId, UpdStatus.running, st2.estimatedProgress, msg,
          some ("Phase: " ++ st2.currentPhase)⟩],
       { st2 with lastProgressUpdate := now })
    else ([], st2)
  else ([], st)

/-- All onProgress deliveries of one xcpretty run, in order. -/
def xpProcessEvents (cb : Bool) (opId : String) (st : XpState) :
    List (Nat × XcprettyData) → List ProgressUpdate × XpState
  | [] => ([], st)
  | e :: rest =>
      let r1 := xpProcessData cb opId e.1 e.2 st
      let r2 := xpProcessEvents cb opId r1.2 rest
      (r1.1 ++ r2.1, r2.2)

/-- How the promise returned by the xcpretty helper settles. -/
inductive XcprettyOutcome
  | done (status : Int) (output : String) (error : Option String)
  | reject (msg : String)
deriving DecidableEq, Repr

/-- Observable behaviour of the xcpretty helper call: it throws synchronously
(in which case the source falls into the catch block that starts the standard
executor, whose own run is recorded here), or it runs, delivering onProgress
data and then settling. -/
inductive XcprettyBehavior
  | syncThrow (msg : String) (fallbackEvents : List StdEvent) (fallbackTerm : ProcTerm)
  | runs (events : List (Nat × XcprettyData)) (outcome : XcprettyOutcome)
deriving DecidableEq, Repr

/-- The terminal update of the then-branch (xcode.ts 216-228). -/
def xpTerminal (cb : Bool) (opId label : String) (status : Int)
    (error : Option String) (st : XpState) : List ProgressUpdate :=
  if cb then
    if status = 0 then
      [⟨opId, UpdStatus.completed, 100, label ++ " completed successfully", none⟩]
    else
      [⟨opId, UpdStatus.failed, st.estimatedProgress,
        label ++ " failed with status code " ++ toString status,
        error.map (fun e => strTake e 500)⟩]
  else []

/-- The resolved value of the then-branch (xcode.ts 230-243). -/
def xpResponse (label : String) (status : Int) (output : String)
    (error : Option String) : XcodeCommandResponse :=
  if status = 0 then
    ⟨true,
     if output = "" then label ++ " operation completed successfully" else output,
     none⟩
  else
    ⟨false, output,
     some (match error with
           | some e =>
               if e = "" then "Operation failed with status code " ++ toString status
               else e
           | none => "Operation failed with status code " ++ toString status)⟩

/-- The terminal update of the rejection branch (xcode.ts 249-257). -/
def xpRejectTerminal (cb : Bool) (opId : String) (msg : String) (st : XpState) :
    List ProgressUpdate :=
  if cb then
    [⟨opId, UpdStatus.failed, st.estimatedProgress,
      "Failed during xcpretty execution: " ++ msg, none⟩]
  else []

/-- The resolved value of the rejection branch (xcode.ts 259-263). -/
def xpRejectResponse (msg : String) : XcodeCommandResponse :=
  ⟨false, "", some ("Failed during xcpretty execution: " ++ msg)⟩

/-- `executeWithXcpretty` (xcode.ts 120-274).  On a synchronous throw the
catch block (lines 265-273) returns the standard executor call from inside the
promise executor without invoking resolve: the standard run happens and emits
its updates, but its response is discarded and the promise handed to the
caller never settles, so the second component is `none` on that path. -/
def executeWithXcpretty (label : String) (cb : Bool) (opId : String) :
    XcprettyBehavior → List ProgressUpdate × Option XcodeCommandResponse
  | .syncThrow _ ev tm =>
      let r := executeStandard label cb opId ev tm
      (r.1, none)
  | .runs evs outcome =>
      let r := xpProcessEvents cb opId xpInit evs
      match outcome with
      | .done status output error =>
          (r.1 ++ xpTerminal cb opId label status error r.2,
           some (xpResponse label status output error))
      | .reject msg =>
          (r.1 ++ xpRejectTerminal cb opId msg r.2, some (xpRejectResponse msg))

/-- `executeXcodeCommand` (xcode.ts 66-115): the initial running update, then
dispatch to the xcpretty path (when the first token is xcodebuild and the
imported xcpretty binding has type function) or to the standard path. -/
def executeXcodeCommand (command : List String) (label : String) (cb : Bool)
    (opId : String) (xcprettyIsFunction : Bool) (xbeh : XcprettyBehavior)
    (events : List StdEvent) (term : ProcTerm) :
    List ProgressUpdate × Option XcodeCommandResponse :=
  let initial : List ProgressUpdate :=
    if cb then [⟨opId, UpdStatus.running, 0, "Starting " ++ label ++ "...", none⟩]
    else []
  if decide (command.head? = some "xcodebuild") && xcprettyIsFunction then
    let r := executeWithXcpretty label cb opId xbeh
    (initial ++ r.1, r.2)
  else
    let r := executeStandard label cb opId events term
    (initial ++ r.1, some r.2)

/-! ## addXcodeParameters (xcode.ts 454-516) -/

/-- The XcodeParams record (xcode.ts 38-52), restricted to the fields
addXcodeParameters reads. -/
structure XcodeParams where
  workspacePath : Option String
  projectPath : Option String
  scheme : Option String
  configuration : Option String
  derivedDataPath : Option String
  platform : Option XcodePlatform
  destination : Option String
  simulatorName : Option String
  simulatorId : Option String
  useLatestOS : Option Bool
  extraArgs : Option (List String)
deriving DecidableEq, Repr

/-- The workspace/project alternative (xcode.ts 459-469). -/
def wsPart (params : XcodeParams) : List String :=
  if optTruthy params.workspacePath then ["-workspace", params.workspacePath.getD ""]
  else if optTruthy params.projectPath then ["-project", params.projectPath.getD ""]
  else []

/-- The scheme parameter (xcode.ts 471-474). -/
def schemePart (params : XcodeParams) : List String :=
  if optTruthy params.scheme then ["-scheme", params.scheme.getD ""] else []

/-- The configuration parameter (xcode.ts 476-479). -/
def configurationPart (params : XcodeParams) : List String :=
  if optTruthy params.configuration then
    ["-configuration", params.configuration.getD ""]
  else []

/-- The derived-data parameter (xcode.ts 481-484). -/
def derivedPart (params : XcodeParams) : List String :=
  if optTruthy params.derivedDataPath then
    ["-derivedDataPath", params.derivedDataPath.getD ""]
  else []

/-- The destination block (xcode.ts 486-510): an explicit destination wins;
otherwise, with a platform present, the constructed destination is used, and a
construction error is caught, logged and swallowed so that no destination
token is appended. -/
def destPart (params : XcodeParams) : List String :=
  if optTruthy params.destination then ["-destination", params.destination.getD ""]
  else
    match params.platform with
    | some plat =>
        match constructDestinationString plat params.simulatorName
            params.simulatorId (params.useLatestOS.getD true) none with
        | .ok d => ["-destination", d]
        | .error _ => []
    | none => []

/-- The trailing extra arguments (xcode.ts 512-515). -/
def extraPart (params : XcodeParams) : List String :=
  match params.extraArgs with
  | some l => if 0 < l.length then l else []
  | none => []

/-- `addXcodeParameters` (xcode.ts 454-516): the pushes onto the command array
in source order. -/
def addXcodeParameters (command : List String) (params : XcodeParams) :
    List String :=
  command ++ wsPart params ++ schemePart params ++ configurationPart params
    ++ derivedPart params ++ destPart params ++ extraPart params

/-! ## executeXcodeBuild (build-utils.ts 56-221), up to the spawn decision -/

/-- Shared build parameters (build-utils.ts 28-35). -/
structure SharedBuildParams where
  workspacePath : Option String
  projectPath : Option String
  scheme : String
  configuration : String
  derivedDataPath : Option String
  extraArgs : Option (List String)
deriving DecidableEq, Repr

/-- Platform-specific build options (build-utils.ts 40-47). -/
structure PlatformBuildOptions where
  platform : XcodePlatform
  simulatorName : Option String
  simulatorId : Option String
  useLatestOS : Option Bool
  arch : Option String
  label : String
deriving DecidableEq, Repr

/-- The observable outcome of the command-assembly stage of executeXcodeBuild:
either a full command handed to executeXcodeCommand (a child process is then
spawned), or an error text response returned without spawning anything. -/
inductive BuildPrep
  | spawn (command : List String)
  | earlyError (msg : String)
deriving DecidableEq, Repr

/-- The fixed head of the build command (build-utils.ts 67-76). -/
def buildBaseCommand (params : SharedBuildParams) : List String :=
  ["xcodebuild"]
    ++ (if optTruthy params.workspacePath then
          ["-workspace", params.workspacePath.getD ""]
        else if optTruthy params.projectPath then
          ["-project", params.projectPath.getD ""]
        else [])
    ++ ["-scheme", params.scheme, "-configuration", params.configuration]

/-- The tail of the build command after the destination (build-utils.ts
129-137). -/
def buildTailCommand (params : SharedBuildParams) (buildAction : String) :
    List String :=
  (if optTruthy params.derivedDataPath then
     ["-derivedDataPath", params.derivedDataPath.getD ""]
   else [])
    ++ params.extraArgs.getD [] ++ [buildAction]

/-- Folds a destination-construction result into the build preparation: an
exception from the resolver is caught by the outer catch (build-utils.ts
213-220) and converted into an error text response, before any spawn. -/
def buildWithDest (params : SharedBuildParams) (opts : PlatformBuildOptions)
    (buildAction : String) (dest : Except String String) : BuildPrep :=
  match dest with
  | .ok d => .spawn (buildBaseCommand params ++ ["-destination", d]
      ++ buildTailCommand params buildAction)
  | .error e => .earlyError ("Error during " ++ opts.label ++ " " ++ buildAction
      ++ ": " ++ e)

/-- The command-assembly stage of `executeXcodeBuild` (build-utils.ts 66-139):
destination selection per platform, with the simulator-platform guard that
returns an error response when neither simulator id nor name is provided. -/
def executeXcodeBuild (params : SharedBuildParams)
    (opts : PlatformBuildOptions) (buildAction : String) : BuildPrep :=
  if isSimulatorPlatform opts.platform then
    if optTruthy opts.simulatorId then
      buildWithDest params opts buildAction
        (constructDestinationString opts.platform none opts.simulatorId true none)
    else if optTruthy opts.simulatorName then
      buildWithDest params opts buildAction
        (constructDestinationString opts.platform opts.simulatorName none
          (opts.useLatestOS.getD true) none)
    else
      .earlyError ("For " ++ opts.platform.str
        ++ " platform, either simulatorId or simulatorName must be provided")
  else if opts.platform = XcodePlatform.macOS then
    buildWithDest params opts buildAction
      (constructDestinationString XcodePlatform.macOS none none false opts.arch)
  else if opts.platform = XcodePlatform.iOS then
    buildWithDest params opts buildAction (.ok "generic/platform=iOS")
  else if opts.platform = XcodePlatform.watchOS then
    buildWithDest params opts buildAction (.ok "generic/platform=watchOS")
  else if opts.platform = XcodePlatform.tvOS then
    buildWithDest params opts buildAction (.ok "generic/platform=tvOS")
  else if opts.platform = XcodePlatform.visionOS then
    buildWithDest params opts buildAction (.ok "generic/platform=visionOS")
  else .earlyError ("Unsupported platform: " ++ opts.platform.str)

/-! ## Properties of the emitted update stream -/

/-- Boolean string head-segment test via character lists. -/
def strStarts (m pre : String) : Bool := pre.toList.isPrefixOf m.toList

/-- The four phase markers with their loop indices. -/
def phasePairs : List (Nat × String) :=
  [(0, "CompileC"), (1, "CompileSwift"), (2, "Linking"), (3, "CodeSign")]

/-- An update emitted by the phase-transition branch: its message is the
phase-transition text of some marker and its progress is that phase's indexed
floor value. -/
def isPhaseResetMsg (msg : String) (prog : Rat) : Bool :=
  phasePairs.any (fun q =>
    decide (msg = q.2 ++ " phase...") && decide (prog = min ((25 * q.1 : Nat) : Rat) 90))

/-- A message/progress pair produced by one of the two branches that may move
the estimate downwards: a phase transition, or an N-of-M-files recomputation. -/
def isResetMsg (msg : String) (prog : Rat) : Bool :=
  isPhaseResetMsg msg prog || strStarts msg "Processing file "

/-- An update emitted by the phase-transition branch. -/
def isPhaseResetUpdate (u : ProgressUpdate) : Bool :=
  isPhaseResetMsg u.message u.progress

/-- An update emitted by a branch that may move the estimate downwards. -/
def isResetUpdate (u : ProgressUpdate) : Bool := isResetMsg u.message u.progress

/-- Progress of the last update of the list, or the seed when it is empty. -/
def lastProg (p : Rat) (us : List ProgressUpdate) : Rat :=
  us.foldl (fun _ u => u.progress) p

/-- Invariant of the stream emitted while the process is alive, relative to
the progress value of the previous update: every element is a running update
with progress at most 95 that either does not decrease the progress or was
emitted by a reset branch. -/
def runOk (p : Rat) : List ProgressUpdate → Bool
  | [] => true
  | u :: rest =>
      decide (u.status = UpdStatus.running)
        && (decide (p ≤ u.progress) || isResetUpdate u)
        && decide (u.progress ≤ 95)
        && runOk u.progress rest

/-- A consecutive pair is acceptable under the amended monotonicity property:
the later update is terminal, or does not decrease progress, or was emitted by
a reset branch (phase transition or N-of-M-files recomputation). -/
def stepPairOk (u v : ProgressUpdate) : Bool :=
  !(decide (v.status = UpdStatus.running)) || decide (u.progress ≤ v.progress)
    || isResetUpdate v

/-- A consecutive pair is acceptable under the claimed monotonicity property,
whose only exception is a phase transition resetting to the phase floor. -/
def stepPairOkOrig (u v : ProgressUpdate) : Bool :=
  !(decide (v.status = UpdStatus.running)) || decide (u.progress ≤ v.progress)
    || isPhaseResetUpdate v

/-- All consecutive pairs of the list satisfy the pair predicate. -/
def pairsOkBy (f : ProgressUpdate → ProgressUpdate → Bool) :
    List ProgressUpdate → Bool
  | u :: v :: rest => f u v && pairsOkBy f (v :: rest)
  | _ => true

/-- The amended monotonicity property of one update stream. -/
def pairsOk (us : List ProgressUpdate) : Bool := pairsOkBy stepPairOk us

/-- The claimed monotonicity property of one update stream. -/
def pairsOkOrig (us : List ProgressUpdate) : Bool := pairsOkBy stepPairOkOrig us

/-- Concatenation of all stdout chunks of a process run. -/
def accumOut : List StdEvent → String
  | [] => ""
  | .out _ c :: r => c ++ accumOut r
  | .err _ _ :: r => accumOut r

/-- Concatenation of all stderr chunks of a process run. -/
def accumErr : List StdEvent → String
  | [] => ""
  | .out _ _ :: r => accumErr r
  | .err _ c :: r => c ++ accumErr r

/-- Specification bundle for one emission step of the standard executor: the
emitted updates satisfy `runOk` from the incoming progress seed, the seed after
them is below the estimate of the outgoing state, and the outgoing estimate
stays within [0, 95]. -/
def StepOk (p : Rat) (out : List ProgressUpdate × ExecState) : Prop :=
  runOk p out.1 = true ∧ lastProg p out.1 ≤ out.2.estimatedProgress
    ∧ 0 ≤ out.2.estimatedProgress ∧ out.2.estimatedProgress ≤ 95

/-! ## Helper lemmas: update-stream algebra -/

lemma lastProg_nil (p : Rat) : lastProg p [] = p := rfl

lemma lastProg_cons (p : Rat) (u : ProgressUpdate) (us : List ProgressUpdate) :
    lastProg p (u :: us) = lastProg u.progress us := rfl

lemma lastProg_append (p : Rat) (us vs : List ProgressUpdate) :
    lastProg p (us ++ vs) = lastProg (lastProg p us) vs := by
  induction us generalizing p with
  | nil => rfl
  | cons u us ih => simpa [lastProg_cons] using ih u.progress

lemma runOk_append (p : Rat) (us vs : List ProgressUpdate) :
    runOk p (us ++ vs) = (runOk p us && runOk (lastProg p us) vs) := by
  induction us generalizing p with
  | nil => simp [runOk, lastProg_nil]
  | cons u us ih =>
      simp only [List.cons_append, runOk, lastProg_cons, List.append_eq,
        ih u.progress, Bool.and_assoc]

lemma runOk_mem {p : Rat} {us : List ProgressUpdate}
    (h : runOk p us = true) :
    ∀ u ∈ us, u.status = UpdStatus.running ∧ u.progress ≤ 95 := by
  induction us generalizing p with
  | nil => intro u hu; cases hu
  | cons v us ih =>
      simp only [runOk, Bool.and_eq_true, decide_eq_true_eq] at h
      intro u hu
      rcases List.mem_cons.mp hu with rfl | hu
      · exact ⟨h.1.1.1, h.1.2⟩
      · exact ih h.2 u hu

lemma runOk_tail {p : Rat} {u : ProgressUpdate} {us : List ProgressUpdate}
    (h : runOk p (u :: us) = true) : runOk u.progress us = true := by
  simp only [runOk, Bool.and_eq_true] at h
  exact h.2

lemma runOk_pairsOk {p : Rat} {us : List ProgressUpdate}
    (h : runOk p us = true) : pairsOk us = true := by
  induction us generalizing p with
  | nil => rfl
  | cons u us ih =>
      have htail := runOk_tail h
      cases us with
      | nil => rfl
      | cons v rest =>
          have h2 := htail
          simp only [runOk, Bool.and_eq_true, decide_eq_true_eq,
            Bool.or_eq_true] at h2
          have hstep : stepPairOk u v = true := by
            simp only [stepPairOk, Bool.or_eq_true, decide_eq_true_eq]
            rcases h2.1.1.2 with hle | hres
            · exact Or.inl (Or.inr hle)
            · exact Or.inr hres
          have hrest : pairsOk (v :: rest) = true := ih htail
          simp only [pairsOk, pairsOkBy, Bool.and_eq_true] at hrest ⊢
          exact ⟨hstep, hrest⟩

lemma pairsOkBy_concat {f : ProgressUpdate → ProgressUpdate → Bool}
    {us : List ProgressUpdate} {t : ProgressUpdate}
    (hf : ∀ u, f u t = true) (h : pairsOkBy f us = true) :
    pairsOkBy f (us ++ [t]) = true := by
  induction us with
  | nil => rfl
  | cons u us ih =>
      cases us with
      | nil => simp [pairsOkBy, hf u]
      | cons v rest =>
          simp only [pairsOkBy, Bool.and_eq_true] at h
          have := ih h.2
          simp only [List.cons_append, pairsOkBy, Bool.and_eq_true]
          exact ⟨h.1, by simpa using this⟩

lemma stepOk_comp {p : Rat} {us1 us2 : List ProgressUpdate} {st2 : ExecState}
    (h1 : runOk p us1 = true) (h2 : StepOk (lastProg p us1) (us2, st2)) :
    StepOk p (us1 ++ us2, st2) := by
  obtain ⟨ha, hb, hc, hd⟩ := h2
  refine ⟨?_, ?_, hc, hd⟩
  · rw [runOk_append]
    simp [h1, ha]
  · rw [lastProg_append]
    exact hb

/-! ## Helper lemmas: the emitting primitives -/

lemma sendProgress_est (cb : Bool) (opId : String) (now : Nat) (force : Bool)
    (msg : String) (st : ExecState) :
    (sendProgress cb opId now force msg st).2.estimatedProgress
      = st.estimatedProgress := by
  unfold sendProgress
  split <;> rfl

lemma sendProgress_stdout (cb : Bool) (opId : String) (now : Nat) (force : Bool)
    (msg : String) (st : ExecState) :
    (sendProgress cb opId now force msg st).2.stdout = st.stdout := by
  unfold sendProgress
  split <;> rfl

lemma sendProgress_stderr (cb : Bool) (opId : String) (now : Nat) (force : Bool)
    (msg : String) (st : ExecState) :
    (sendProgress cb opId now force msg st).2.stderr = st.stderr := by
  unfold sendProgress
  split <;> rfl

lemma sendProgress_spec_le {p : Rat} (cb : Bool) (opId : String)
    (now : Nat) (force : Bool) (msg : String) (st : ExecState)
    (hp : p ≤ st.estimatedProgress) (h0 : 0 ≤ st.estimatedProgress)
    (h95 : st.estimatedProgress ≤ 95) :
    StepOk p (sendProgress cb opId now force msg st) := by
  unfold sendProgress
  split
  · refine ⟨?_, le_refl _, h0, h95⟩
    simp [runOk, hp, h95]
  · exact ⟨rfl, hp, h0, h95⟩

lemma sendProgress_spec_reset {p : Rat} (opId : String)
    (now : Nat) (msg : String) (st : ExecState)
    (hres : isResetMsg msg st.estimatedProgress = true)
    (h0 : 0 ≤ st.estimatedProgress) (h95 : st.estimatedProgress ≤ 95) :
    StepOk p (sendProgress true opId now true msg st) := by
  unfold sendProgress
  simp only [Bool.true_and, Bool.true_or, if_true]
  refine ⟨?_, le_refl _, h0, h95⟩
  simp [runOk, isResetUpdate, hres, h95]

lemma compileBump_est (ph : String) (st : ExecState)
    (h95 : st.estimatedProgress ≤ 95) :
    st.estimatedProgress ≤ (compileBump ph st).estimatedProgress
      ∧ (compileBump ph st).estimatedProgress ≤ 95 := by
  unfold compileBump
  split
  · dsimp only
    split
    · constructor
      · exact le_min (le_add_of_nonneg_right (by positivity)) h95
      · exact min_le_right _ _
    · exact ⟨le_refl _, h95⟩
  · exact ⟨le_refl _, h95⟩

lemma compileBump_stdout (ph : String) (st : ExecState) :
    (compileBump ph st).stdout = st.stdout := by
  unfold compileBump
  split
  · dsimp only
    split <;> rfl
  · rfl

lemma compileBump_stderr (ph : String) (st : ExecState) :
    (compileBump ph st).stderr = st.stderr := by
  unfold compileBump
  split
  · dsimp only
    split <;> rfl
  · rfl

lemma findPhase_char {line : String} {q : Nat × String}
    (h : findPhase line = some q) : q ∈ phasePairs := by
  simp only [findPhase] at h
  split_ifs at h <;> simp_all [phasePairs]

lemma isPhaseResetMsg_of {q : Nat × String} (hq : q ∈ phasePairs) :
    isPhaseResetMsg (q.2 ++ " phase...") (min ((25 * q.1 : Nat) : Rat) 90)
      = true := by
  unfold isPhaseResetMsg
  rw [List.any_eq_true]
  exact ⟨q, hq, by simp⟩

lemma isPrefixOf_self_append (l t : List Char) : l.isPrefixOf (l ++ t) = true := by
  induction l with
  | nil => cases t <;> rfl
  | cons c cs ih => simp [List.isPrefixOf, ih]

lemma strStarts_append (pre rest : String) :
    strStarts (pre ++ rest) pre = true := by
  unfold strStarts
  have : (pre ++ rest).toList = pre.toList ++ rest.toList := by
    cases pre
    cases rest
    rfl
  rw [this]
  exact isPrefixOf_self_append _ _

lemma str_append_empty (s : String) : s ++ "" = s := by
  obtain ⟨l⟩ := s
  show String.mk (l ++ []) = String.mk l
  rw [List.append_nil]

lemma str_append_assoc (a b c : String) : a ++ b ++ c = a ++ (b ++ c) := by
  obtain ⟨x⟩ := a
  obtain ⟨y⟩ := b
  obtain ⟨z⟩ := c
  show String.mk (x ++ y ++ z) = String.mk (x ++ (y ++ z))
  rw [List.append_assoc]

lemma strStarts_append3 (pre a b c : String) :
    strStarts (pre ++ a ++ b ++ c) pre = true := by
  rw [str_append_assoc, str_append_assoc]
  exact strStarts_append _ _

/-! ## Helper lemmas: the per-line steps of the standard executor -/

lemma phaseBody_spec {p : Rat} (opId : String) (now : Nat) (line : String)
    (ph : String) (r1 : List ProgressUpdate × ExecState)
    (h1 : runOk p r1.1 = true)
    (hl : lastProg p r1.1 ≤ r1.2.estimatedProgress)
    (h0 : 0 ≤ r1.2.estimatedProgress) (h95 : r1.2.estimatedProgress ≤ 95) :
    StepOk p
      (r1.1 ++ (sendProgress true opId now false
          ("Processing: " ++ strTake line 80 ++ "...") (compileBump ph r1.2)).1,
       (sendProgress true opId now false
          ("Processing: " ++ strTake line 80 ++ "...") (compileBump ph r1.2)).2) := by
  have CB := compileBump_est ph r1.2 h95
  have S2 := sendProgress_spec_le (p := lastProg p r1.1) true opId now false
    ("Processing: " ++ strTake line 80 ++ "...") (compileBump ph r1.2)
    (le_trans hl CB.1) (le_trans h0 CB.1) CB.2
  exact stepOk_comp h1 S2

lemma phaseStep_spec {p : Rat} {st : ExecState} (opId : String) (now : Nat)
    (line : String) (hp : p ≤ st.estimatedProgress)
    (h0 : 0 ≤ st.estimatedProgress) (h95 : st.estimatedProgress ≤ 95) :
    StepOk p (phaseStep true opId now line st) := by
  unfold phaseStep
  cases hf : findPhase line with
  | none => exact ⟨rfl, hp, h0, h95⟩
  | some q =>
      dsimp only
      by_cases hc : st.currentPhase ≠ q.2
      · rw [if_pos hc]
        have hmem := findPhase_char hf
        have hres : isResetMsg (q.2 ++ " phase...") (min ((25 * q.1 : Nat) : Rat) 90) = true := by
          unfold isResetMsg
          rw [isPhaseResetMsg_of hmem]
          rfl
        have S1 := sendProgress_spec_reset (p := p) opId now (q.2 ++ " phase...") { st with currentPhase := q.2, estimatedProgress := min ((25 * q.1 : Nat) : Rat) 90 } hres (le_min (by positivity) (by norm_num)) (le_trans (min_le_right _ _) (by norm_num))
        exact phaseBody_spec opId now line q.2 _ S1.1 S1.2.1 S1.2.2.1 S1.2.2.2
      · rw [if_neg hc]
        exact phaseBody_spec opId now line q.2 ([], st) rfl hp h0 h95

lemma fileStep_spec {p : Rat} (opId : String) (now : Nat)
    (line : String) (st : ExecState) (hp : p ≤ st.estimatedProgress)
    (h0 : 0 ≤ st.estimatedProgress) (h95 : st.estimatedProgress ≤ 95) :
    StepOk p (fileStep true opId now line st) := by
  unfold fileStep
  cases hf : fileCountMatch line with
  | none => exact ⟨rfl, hp, h0, h95⟩
  | some q =>
      dsimp only
      split
      · apply sendProgress_spec_reset
        · simp [isResetMsg, strStarts_append3]
        · exact le_min (by positivity) (by norm_num)
        · exact min_le_right _ _
      · exact ⟨rfl, hp, h0, h95⟩

lemma processLine_spec {p : Rat} {st : ExecState} (opId : String) (now : Nat)
    (line : String) (hp : p ≤ st.estimatedProgress)
    (h0 : 0 ≤ st.estimatedProgress) (h95 : st.estimatedProgress ≤ 95) :
    StepOk p (processLine true opId now line st) := by
  unfold processLine
  have S1 := phaseStep_spec opId now line hp h0 h95
  have S2 := fileStep_spec opId now line (phaseStep true opId now line st).2
    S1.2.1 S1.2.2.1 S1.2.2.2
  exact stepOk_comp S1.1 S2

lemma processLines_spec {p : Rat} {st : ExecState} (opId : String) (now : Nat)
    (lines : List String) (hp : p ≤ st.estimatedProgress)
    (h0 : 0 ≤ st.estimatedProgress) (h95 : st.estimatedProgress ≤ 95) :
    StepOk p (processLines true opId now lines st) := by
  induction lines generalizing p st with
  | nil => exact ⟨rfl, hp, h0, h95⟩
  | cons line rest ih =>
      have S1 := processLine_spec opId now line hp h0 h95
      have S2 := ih S1.2.1 S1.2.2.1 S1.2.2.2
      exact stepOk_comp S1.1 S2

lemma processOutChunk_spec {p : Rat} {st : ExecState} (opId : String)
    (now : Nat) (chunk : String) (hp : p ≤ st.estimatedProgress)
    (h0 : 0 ≤ st.estimatedProgress) (h95 : st.estimatedProgress ≤ 95) :
    StepOk p (processOutChunk true opId now chunk st) := by
  unfold processOutChunk
  exact processLines_spec opId now (splitLines chunk) hp h0 h95

lemma processErrChunk_spec {p : Rat} {st : ExecState} (opId : String)
    (now : Nat) (chunk : String) (hp : p ≤ st.estimatedProgress)
    (h0 : 0 ≤ st.estimatedProgress) (h95 : st.estimatedProgress ≤ 95) :
    StepOk p (processErrChunk true opId now chunk st) := by
  unfold processErrChunk
  exact sendProgress_spec_le true opId now true _ _ hp h0 h95

lemma processEvent_spec {p : Rat} {st : ExecState} (opId : String)
    (e : StdEvent) (hp : p ≤ st.estimatedProgress)
    (h0 : 0 ≤ st.estimatedProgress) (h95 : st.estimatedProgress ≤ 95) :
    StepOk p (processEvent true opId st e) := by
  cases e with
  | out t chunk => exact processOutChunk_spec opId t chunk hp h0 h95
  | err t chunk => exact processErrChunk_spec opId t chunk hp h0 h95

lemma processEvents_spec {p : Rat} {st : ExecState} (opId : String)
    (events : List StdEvent) (hp : p ≤ st.estimatedProgress)
    (h0 : 0 ≤ st.estimatedProgress) (h95 : st.estimatedProgress ≤ 95) :
    StepOk p (processEvents true opId st events) := by
  induction events generalizing p st with
  | nil => exact ⟨rfl, hp, h0, h95⟩
  | cons e rest ih =>
      have S1 := processEvent_spec opId e hp h0 h95
      have S2 := ih S1.2.1 S1.2.2.1 S1.2.2.2
      exact stepOk_comp S1.1 S2

lemma processEvents_master (opId : String) (events : List StdEvent) :
    StepOk 0 (processEvents true opId initState events) :=
  processEvents_spec opId events (le_refl 0) (le_refl 0) (by norm_num [initState])

/-! ## Helper lemmas: output accumulation -/

lemma phaseStep_stdout (cb : Bool) (opId : String) (now : Nat) (line : String)
    (st : ExecState) : (phaseStep cb opId now line st).2.stdout = st.stdout := by
  unfold phaseStep
  cases hf : findPhase line with
  | none => rfl
  | some q =>
      dsimp only
      rw [sendProgress_stdout, compileBump_stdout]
      split
      · rw [sendProgress_stdout]
      · rfl

lemma phaseStep_stderr (cb : Bool) (opId : String) (now : Nat) (line : String)
    (st : ExecState) : (phaseStep cb opId now line st).2.stderr = st.stderr := by
  unfold phaseStep
  cases hf : findPhase line with
  | none => rfl
  | some q =>
      dsimp only
      rw [sendProgress_stderr, compileBump_stderr]
      split
      · rw [sendProgress_stderr]
      · rfl

lemma fileStep_stdout (cb : Bool) (opId : String) (now : Nat) (line : String)
    (st : ExecState) : (fileStep cb opId now line st).2.stdout = st.stdout := by
  unfold fileStep
  cases hf : fileCountMatch line with
  | none => rfl
  | some q =>
      dsimp only
      split
      · rw [sendProgress_stdout]
      · rfl

lemma fileStep_stderr (cb : Bool) (opId : String) (now : Nat) (line : String)
    (st : ExecState) : (fileStep cb opId now line st).2.stderr = st.stderr := by
  unfold fileStep
  cases hf : fileCountMatch line with
  | none => rfl
  | some q =>
      dsimp only
      split
      · rw [sendProgress_stderr]
      · rfl

lemma processLine_stdout (cb : Bool) (opId : String) (now : Nat) (line : String)
    (st : ExecState) : (processLine cb opId now line st).2.stdout = st.stdout := by
  unfold processLine
  rw [fileStep_stdout, phaseStep_stdout]

lemma processLine_stderr (cb : Bool) (opId : String) (now : Nat) (line : String)
    (st : ExecState) : (processLine cb opId now line st).2.stderr = st.stderr := by
  unfold processLine
  rw [fileStep_stderr, phaseStep_stderr]

lemma processLines_stdout (cb : Bool) (opId : String) (now : Nat)
    (lines : List String) (st : ExecState) :
    (processLines cb opId now lines st).2.stdout = st.stdout := by
  induction lines generalizing st with
  | nil => rfl
  | cons line rest ih =>
      unfold processLines
      rw [ih, processLine_stdout]

lemma processLines_stderr (cb : Bool) (opId : String) (now : Nat)
    (lines : List String) (st : ExecState) :
    (processLines cb opId now lines st).2.stderr = st.stderr := by
  induction lines generalizing st with
  | nil => rfl
  | cons line rest ih =>
      unfold processLines
      rw [ih, processLine_stderr]

lemma processOutChunk_stdout (cb : Bool) (opId : String) (now : Nat)
    (chunk : String) (st : ExecState) :
    (processOutChunk cb opId now chunk st).2.stdout = st.stdout ++ chunk := by
  unfold processOutChunk
  split
  · rw [processLines_stdout]
  · rfl

lemma processOutChunk_stderr (cb : Bool) (opId : String) (now : Nat)
    (chunk : String) (st : ExecState) :
    (processOutChunk cb opId now chunk st).2.stderr = st.stderr := by
  unfold processOutChunk
  split
  · rw [processLines_stderr]
  · rfl

lemma processErrChunk_stdout (cb : Bool) (opId : String) (now : Nat)
    (chunk : String) (st : ExecState) :
    (processErrChunk cb opId now chunk st).2.stdout = st.stdout := by
  unfold processErrChunk
  split
  · rw [sendProgress_stdout]
  · rfl

lemma processErrChunk_stderr (cb : Bool) (opId : String) (now : Nat)
    (chunk : String) (st : ExecState) :
    (processErrChunk cb opId now chunk st).2.stderr = st.stderr ++ chunk := by
  unfold processErrChunk
  split
  · rw [sendProgress_stderr]
  · rfl

lemma processEvents_stdout (cb : Bool) (opId : String) (events : List StdEvent)
    (st : ExecState) :
    (processEvents cb opId st events).2.stdout = st.stdout ++ accumOut events := by
  induction events generalizing st with
  | nil => exact (str_append_empty _).symm
  | cons e rest ih =>
      unfold processEvents
      cases e with
      | out t chunk =>
          dsimp only [processEvent]
          rw [ih, processOutChunk_stdout, accumOut, str_append_assoc]
      | err t chunk =>
          dsimp only [processEvent]
          rw [ih, processErrChunk_stdout, accumOut]

lemma processEvents_stderr (cb : Bool) (opId : String) (events : List StdEvent)
    (st : ExecState) :
    (processEvents cb opId st events).2.stderr = st.stderr ++ accumErr events := by
  induction events generalizing st with
  | nil => exact (str_append_empty _).symm
  | cons e rest ih =>
      unfold processEvents
      cases e with
      | out t chunk =>
          dsimp only [processEvent]
          rw [ih, processOutChunk_stderr, accumErr]
      | err t chunk =>
          dsimp only [processEvent]
          rw [ih, processErrChunk_stderr, accumErr, str_append_assoc]

/-! ## Helper lemmas: terminal updates and stream shape -/

lemma str_empty_append (s : String) : "" ++ s = s := by
  obtain ⟨l⟩ := s
  rfl

lemma stepPairOk_terminal {t : ProgressUpdate}
    (h : t.status ≠ UpdStatus.running) (u : ProgressUpdate) :
    stepPairOk u t = true := by
  simp [stepPairOk, h]

lemma closeTerminal_shape (opId label : String) (ec : Int) (st : ExecState) :
    ∃ t, closeTerminal true opId label ec st = [t]
      ∧ (t.status = UpdStatus.completed ∨ t.status = UpdStatus.failed) := by
  unfold closeTerminal
  split
  · split
    · exact ⟨_, rfl, Or.inl rfl⟩
    · exact ⟨_, rfl, Or.inr rfl⟩
  · simp at *

lemma executeStandard_shape (label opId : String) (events : List StdEvent)
    (term : ProcTerm) :
    ∃ pre t, (executeStandard label true opId events term).1 = pre ++ [t]
      ∧ (∀ u ∈ pre, u.status = UpdStatus.running)
      ∧ (t.status = UpdStatus.completed ∨ t.status = UpdStatus.failed) := by
  have M := processEvents_master opId events
  have hrun := runOk_mem M.1
  cases term with
  | close ec =>
      obtain ⟨t, ht, hs⟩ := closeTerminal_shape opId label ec
        (processEvents true opId initState events).2
      refine ⟨(processEvents true opId initState events).1, t, ?_, ?_, hs⟩
      · unfold executeStandard
        dsimp only
        rw [ht]
      · intro u hu
        exact (hrun u hu).1
  | spawnError msg =>
      refine ⟨(processEvents true opId initState events).1,
        ⟨opId, UpdStatus.failed, 0,
          "Failed to start " ++ label ++ " process: " ++ msg, none⟩, rfl, ?_,
        Or.inr rfl⟩
      intro u hu
      exact (hrun u hu).1

lemma xpProcessData_running (cb : Bool) (opId : String) (now : Nat)
    (d : XcprettyData) (st : XpState) :
    ∀ u ∈ (xpProcessData cb opId now d st).1, u.status = UpdStatus.running := by
  unfold xpProcessData
  split
  · dsimp only
    split
    · intro u hu
      rcases List.mem_singleton.mp hu with rfl
      rfl
    · intro u hu
      cases hu
  · intro u hu
    cases hu

lemma xpProcessEvents_running (cb : Bool) (opId : String) (st : XpState)
    (events : List (Nat × XcprettyData)) :
    ∀ u ∈ (xpProcessEvents cb opId st events).1,
      u.status = UpdStatus.running := by
  induction events generalizing st with
  | nil => intro u hu; cases hu
  | cons e rest ih =>
      unfold xpProcessEvents
      intro u hu
      rcases List.mem_append.mp hu with h | h
      · exact xpProcessData_running cb opId e.1 e.2 st u h
      · exact ih _ u h

lemma xpTerminal_shape (opId label : String) (status : Int)
    (error : Option String) (st : XpState) :
    ∃ t, xpTerminal true opId label status error st = [t]
      ∧ (t.status = UpdStatus.completed ∨ t.status = UpdStatus.failed) := by
  unfold xpTerminal
  split
  · split
    · exact ⟨_, rfl, Or.inl rfl⟩
    · exact ⟨_, rfl, Or.inr rfl⟩
  · simp at *

lemma executeWithXcpretty_shape (label opId : String) (xbeh : XcprettyBehavior) :
    ∃ pre t, (executeWithXcpretty label true opId xbeh).1 = pre ++ [t]
      ∧ (∀ u ∈ pre, u.status = UpdStatus.running)
      ∧ (t.status = UpdStatus.completed ∨ t.status = UpdStatus.failed) := by
  cases xbeh with
  | syncThrow msg ev tm =>
      obtain ⟨pre, t, h1, h2, h3⟩ := executeStandard_shape label opId ev tm
      exact ⟨pre, t, h1, h2, h3⟩
  | runs evs outcome =>
      have hrun := xpProcessEvents_running true opId xpInit evs
      cases outcome with
      | done status output error =>
          obtain ⟨t, ht, hs⟩ := xpTerminal_shape opId label status error
            (xpProcessEvents true opId xpInit evs).2
          refine ⟨(xpProcessEvents true opId xpInit evs).1, t, ?_, hrun, hs⟩
          unfold executeWithXcpretty
          dsimp only
          rw [ht]
      | reject msg =>
          exact ⟨(xpProcessEvents true opId xpInit evs).1,
            ⟨opId, UpdStatus.failed,
              (xpProcessEvents true opId xpInit evs).2.estimatedProgress,
              "Failed during xcpretty execution: " ++ msg, none⟩,
            rfl, hrun, Or.inr rfl⟩

/-! ## Claim theorems -/

/-- C3: for every simulator platform, resolving a destination with a simulator
identifier supplied produces exactly platform=P,id=ID, even when a simulator
name is also supplied: the identifier takes precedence over the name. -/
theorem destination_id_precedence (p : XcodePlatform)
    (hp : isSimulatorPlatform p = true) (name : Option String) (id : String)
    (hid : id ≠ "") (useLatest : Bool) (arch : Option String) :
    constructDestinationString p name (some id) useLatest arch
      = Except.ok ("platform=" ++ p.str ++ ",id=" ++ id) := by
  unfold constructDestinationString
  simp [optTruthy, hp, hid]

/-- Witness for C3 at the spec's own example. -/
theorem destination_id_precedence_witness :
    constructDestinationString XcodePlatform.iOSSimulator (some "iPhone 16")
      (some "ABC-123") true none
      = Except.ok "platform=iOS Simulator,id=ABC-123" :=
  destination_id_precedence XcodePlatform.iOSSimulator rfl (some "iPhone 16")
    "ABC-123" (by decide) true none

/-- C4: for every simulator platform, a destination resolved from a simulator
name and no identifier is platform=P,name=NAME,OS=latest exactly when
useLatestOS is true, and platform=P,name=NAME when it is false; an omitted
useLatestOS defaults to true at the addXcodeParameters call site. -/
theorem destination_name_os_latest (p : XcodePlatform)
    (hp : isSimulatorPlatform p = true) (name : String) (hname : name ≠ "")
    (useLatest : Bool) (arch : Option String) :
    constructDestinationString p (some name) none useLatest arch
      = Except.ok ("platform=" ++ p.str ++ ",name=" ++ name
          ++ (if useLatest then ",OS=latest" else ""))
  ∧ destPart (⟨none, none, none, none, none, some p, none, some name, none, none, none⟩ : XcodeParams)
      = ["-destination", "platform=" ++ p.str ++ ",name=" ++ name ++ ",OS=latest"] := by
  have h1 : ∀ u : Bool, constructDestinationString p (some name) none u arch
      = Except.ok ("platform=" ++ p.str ++ ",name=" ++ name
          ++ (if u then ",OS=latest" else "")) := by
    intro u
    unfold constructDestinationString
    simp [optTruthy, hp, hname]
  have h1' : constructDestinationString p (some name) none true none
      = Except.ok ("platform=" ++ p.str ++ ",name=" ++ name ++ ",OS=latest") := by
    unfold constructDestinationString
    simp [optTruthy, hp, hname]
  refine ⟨h1 useLatest, ?_⟩
  simp [destPart, optTruthy, h1']

/-- Witness for C4 at the spec's own example. -/
theorem destination_name_os_latest_witness :
    constructDestinationString XcodePlatform.iOSSimulator (some "iPhone 16")
      none false none
      = Except.ok "platform=iOS Simulator,name=iPhone 16" :=
  (destination_name_os_latest XcodePlatform.iOSSimulator rfl "iPhone 16"
    (by decide) false none).1

/-- C5: for every simulator platform, resolving with neither identifier nor
name fails with the invalid-target error (never a generic fallback
destination), and the executeXcodeBuild caller returns its error response
before any command is handed to the executor, so no child process is
spawned. -/
theorem destination_missing_simulator_errors (opts : PlatformBuildOptions)
    (hp : isSimulatorPlatform opts.platform = true)
    (hname : optTruthy opts.simulatorName = false)
    (hid : optTruthy opts.simulatorId = false) (useLatest : Bool)
    (arch : Option String) (params : SharedBuildParams) (buildAction : String) :
    constructDestinationString opts.platform opts.simulatorName opts.simulatorId
        useLatest arch
      = Except.error ("Simulator name or ID is required for specific "
          ++ opts.platform.str ++ " operations")
  ∧ executeXcodeBuild params opts buildAction
      = BuildPrep.earlyError ("For " ++ opts.platform.str
          ++ " platform, either simulatorId or simulatorName must be provided") := by
  constructor
  · unfold constructDestinationString
    simp [hp, hname, hid]
  · unfold executeXcodeBuild
    simp [hp, hname, hid]

/-- Witness for C5 at a concrete option record. -/
theorem destination_missing_simulator_errors_witness :
    constructDestinationString XcodePlatform.iOSSimulator none none true none
      = Except.error "Simulator name or ID is required for specific iOS Simulator operations"
  ∧ executeXcodeBuild ⟨none, none, "App", "Debug", none, none⟩
      ⟨XcodePlatform.iOSSimulator, none, none, none, none, "Build"⟩ "build"
      = BuildPrep.earlyError "For iOS Simulator platform, either simulatorId or simulatorName must be provided" :=
  destination_missing_simulator_errors
    ⟨XcodePlatform.iOSSimulator, none, none, none, none, "Build"⟩
    rfl rfl rfl true none ⟨none, none, "App", "Debug", none, none⟩ "build"

lemma escBodyL_all {cs : List Char}
    (hs : cs.all (fun c => !(isLineTerm c)) = true) :
    (escBodyL cs).all (fun c => !(isLineTerm c)) = true := by
  induction cs with
  | nil => rfl
  | cons c rest ih =>
      simp only [List.all_cons, Bool.and_eq_true] at hs
      have htail := ih hs.2
      unfold escBodyL escCharL
      split
      · simp [hs.1, htail]
        decide
      · simp [hs.1, htail]

lemma isFullyQuotedL_intro {cs : List Char}
    (hs : cs.all (fun c => !(isLineTerm c)) = true)
    (h1 : cs.head? = some dq) (h2 : cs.getLast? = some dq)
    (hlen : 2 ≤ cs.length) : isFullyQuotedL cs = true := by
  cases cs with
  | nil => cases h1
  | cons c rest =>
      have hc : c = dq := by
        simpa using h1
      have hrest : rest ≠ [] := by
        intro h
        subst h
        simp at hlen
      have hlast : rest.getLast? = some dq := by
        cases rest with
        | nil => exact absurd rfl hrest
        | cons y ys => rwa [List.getLast?_cons_cons] at h2
      unfold isFullyQuotedL
      simp only [Bool.and_eq_true, decide_eq_true_eq]
      refine ⟨⟨⟨hc, ?_⟩, ?_⟩, ?_⟩
      · have := List.length_pos.mpr hrest
        omega
      · rw [List.getLastD_eq_getLast? ' ' rest, hlast]
        rfl
      · simp only [List.all_cons, Bool.and_eq_true] at hs
        rw [List.all_eq_true] at hs ⊢
        intro x hx
        exact hs.2 x (List.dropLast_subset rest hx)

lemma escapeArgL_idem {cs : List Char}
    (hs : cs.all (fun c => !(isLineTerm c)) = true) :
    escapeArgL (escapeArgL cs) = escapeArgL cs := by
  by_cases hq : (needsQuotingL cs && !(isFullyQuotedL cs)) = true
  · have hout : escapeArgL cs = dq :: (escBodyL cs ++ [dq]) := by
      unfold escapeArgL
      rw [if_pos hq]
    have hfq : isFullyQuotedL (dq :: (escBodyL cs ++ [dq])) = true := by
      show (decide (dq = dq) && decide (1 ≤ (escBodyL cs ++ [dq]).length)
          && decide ((escBodyL cs ++ [dq]).getLastD ' ' = dq)
          && (escBodyL cs ++ [dq]).dropLast.all fun ch => !(isLineTerm ch)) = true
      rw [List.getLastD_concat, List.dropLast_concat]
      simp [escBodyL_all hs]
    rw [hout]
    unfold escapeArgL
    rw [if_neg (by simp [hfq])]
  · have : escapeArgL cs = cs := by
      unfold escapeArgL
      rw [if_neg hq]
    rw [this, this]

/-- C6 counterexample: the quoting step is not idempotent and does re-quote an
already fully quoted token, when the token contains a newline: the anchored
already-quoted regex test fails because the wildcard does not match line
terminators. -/
theorem escape_requoting_cex :
    escapeArg (String.mk [dq, 'a', Char.ofNat 10, 'b', dq])
        ≠ String.mk [dq, 'a', Char.ofNat 10, 'b', dq]
  ∧ escapeArg (escapeArg (String.mk ['a', Char.ofNat 10, 'b']))
        ≠ escapeArg (String.mk ['a', Char.ofNat 10, 'b']) := by
  constructor <;> decide

/-- C6 amended: for every token containing no line terminator, the quoting of
the executor is idempotent, a token already fully wrapped in double quotes is
left unchanged, a token containing whitespace, a comma, a quote character or
an equals sign (and not already fully wrapped) is wrapped in double quotes
with embedded quote and backslash characters escaped, and any other token
passes through unchanged. -/
theorem escape_quoting_amended (s : String)
    (hs : s.toList.all (fun c => !(isLineTerm c)) = true) :
    (s.toList.head? = some dq → s.toList.getLast? = some dq →
       2 ≤ s.toList.length → escapeArg s = s)
  ∧ (needsQuotingL s.toList = false → escapeArg s = s)
  ∧ (needsQuotingL s.toList = true → isFullyQuotedL s.toList = false →
       escapeArg s = String.mk (dq :: (escBodyL s.toList ++ [dq])))
  ∧ escapeArg (escapeArg s) = escapeArg s := by
  obtain ⟨l⟩ := s
  simp only [show (String.mk l).toList = l from rfl] at hs ⊢
  refine ⟨?_, ?_, ?_, ?_⟩
  · intro h1 h2 hlen
    have hfq := isFullyQuotedL_intro hs h1 h2 hlen
    have hl : escapeArgL l = l := by
      unfold escapeArgL
      rw [if_neg (by simp [hfq])]
    show String.mk (escapeArgL l) = String.mk l
    rw [hl]
  · intro hnq
    have hl : escapeArgL l = l := by
      unfold escapeArgL
      rw [if_neg (by simp [hnq])]
    show String.mk (escapeArgL l) = String.mk l
    rw [hl]
  · intro hnq hfq
    have hl : escapeArgL l = dq :: (escBodyL l ++ [dq]) := by
      unfold escapeArgL
      rw [if_pos (by simp [hnq, hfq])]
    show String.mk (escapeArgL l) = String.mk (dq :: (escBodyL l ++ [dq]))
    rw [hl]
  · show String.mk (escapeArgL (String.mk (escapeArgL l)).toList)
        = String.mk (escapeArgL l)
    rw [show (String.mk (escapeArgL l)).toList = escapeArgL l from rfl]
    rw [escapeArgL_idem hs]

/-- Witness for C6 amended at a token with a space. -/
theorem escape_quoting_amended_witness :
    needsQuotingL ("a b").toList = true
  ∧ escapeArg "a b" = String.mk (dq :: (escBodyL ("a b").toList ++ [dq]))
  ∧ escapeArg (escapeArg "a b") = escapeArg "a b" :=
  ⟨by decide,
   (escape_quoting_amended "a b" (by decide)).2.2.1 (by decide) (by decide),
   (escape_quoting_amended "a b" (by decide)).2.2.2⟩

/-- C2: when the process runs to a close event, exit code 0 yields success
with output equal to the captured stdout (or the generic success text when
stdout is empty) and no error; any nonzero exit code yields failure whose
error is the captured stderr (or the generic text naming the exit code when
stderr is empty), while output still carries the captured stdout. -/
theorem exit_code_result (label : String) (cb : Bool) (opId : String)
    (events : List StdEvent) (ec : Int) :
    (ec = 0 → (executeStandard label cb opId events (ProcTerm.close ec)).2
        = ⟨true,
           if accumOut events = "" then label ++ " operation completed successfully"
           else accumOut events,
           none⟩)
  ∧ (ec ≠ 0 → (executeStandard label cb opId events (ProcTerm.close ec)).2
        = ⟨false, accumOut events,
           some (if accumErr events = "" then
                   "Operation failed with exit code " ++ toString ec
                     ++ ". No stderr output."
                 else accumErr events)⟩) := by
  have hout : (processEvents cb opId initState events).2.stdout = accumOut events := by
    rw [processEvents_stdout]
    exact str_empty_append _
  have herr : (processEvents cb opId initState events).2.stderr = accumErr events := by
    rw [processEvents_stderr]
    exact str_empty_append _
  constructor
  · intro h
    subst h
    show closeResponse label 0 (processEvents cb opId initState events).2 = _
    unfold closeResponse
    rw [if_pos rfl, hout]
  · intro h
    show closeResponse label ec (processEvents cb opId initState events).2 = _
    unfold closeResponse
    rw [if_neg h, hout, herr]

/-- Witness for C2 at a failing run with stderr captured. -/
theorem exit_code_result_witness :
    (executeStandard "B" true "op" [StdEvent.err 0 "boom"] (ProcTerm.close 1)).2
      = ⟨false, "", some "boom"⟩ := by
  have h := (exit_code_result "B" true "op" [StdEvent.err 0 "boom"] 1).2 (by decide)
  simpa using h

/-- C7: with a progress sink supplied, every execution emits exactly one
terminal progress update (status completed or failed), and it is the last
update emitted: the stream splits as running updates followed by one terminal
update, on the standard path, the xcpretty path and the xcpretty fallback
path. -/
theorem single_terminal_update (command : List String) (label opId : String)
    (xfun : Bool) (xbeh : XcprettyBehavior) (events : List StdEvent)
    (term : ProcTerm) :
    ∃ pre t,
      (executeXcodeCommand command label true opId xfun xbeh events term).1
        = pre ++ [t]
      ∧ (∀ u ∈ pre, u.status = UpdStatus.running)
      ∧ (t.status = UpdStatus.completed ∨ t.status = UpdStatus.failed) := by
  unfold executeXcodeCommand
  dsimp only
  split
  · obtain ⟨pre, t, h1, h2, h3⟩ := executeWithXcpretty_shape label opId xbeh
    refine ⟨⟨opId, UpdStatus.running, 0, "Starting " ++ label ++ "...", none⟩ :: pre,
      t, ?_, ?_, h3⟩
    · rw [h1]
      simp
    · intro u hu
      rcases List.mem_cons.mp hu with rfl | hu
      · rfl
      · exact h2 u hu
  · obtain ⟨pre, t, h1, h2, h3⟩ := executeStandard_shape label opId events term
    refine ⟨⟨opId, UpdStatus.running, 0, "Starting " ++ label ++ "...", none⟩ :: pre,
      t, ?_, ?_, h3⟩
    · rw [h1]
      simp
    · intro u hu
      rcases List.mem_cons.mp hu with rfl | hu
      · rfl
      · exact h2 u hu

/-- Witness for C7 at a concrete run on the standard path. -/
theorem single_terminal_update_witness :
    ∃ pre t,
      (executeXcodeCommand ["xcrun", "simctl", "list"] "List" true "op" false
          (XcprettyBehavior.runs [] (XcprettyOutcome.done 0 "" none))
          [StdEvent.out 2000 "CompileC x\n"] (ProcTerm.close 0)).1
        = pre ++ [t]
      ∧ (∀ u ∈ pre, u.status = UpdStatus.running)
      ∧ (t.status = UpdStatus.completed ∨ t.status = UpdStatus.failed) :=
  single_terminal_update ["xcrun", "simctl", "list"] "List" "op" false
    (XcprettyBehavior.runs [] (XcprettyOutcome.done 0 "" none))
    [StdEvent.out 2000 "CompileC x\n"] (ProcTerm.close 0)

/-- C8 counterexample: the emitted progress estimate can decrease between two
consecutive updates without any phase transition: after the CompileSwift
transition sets the estimate to 25, a later 1-of-100-files line recomputes it
to 0, so monotonicity with only the phase-transition exception fails. -/
theorem progress_decrease_cex :
    pairsOkOrig (executeStandard "Build" true "op"
      [StdEvent.out 2000 "CompileSwift foo\n", StdEvent.out 4000 "1 of 100 files\n"]
      (ProcTerm.close 0)).1 = false := by
  decide

/-- C8 amended: within one standard execution with a progress sink, the
emitted progress estimate is non-decreasing from one running update to the
next except when a phase transition resets it to that phase's indexed floor
value or an N-of-M-files recomputation resets it to the ratio-derived value;
every running estimate is strictly below 100; and when the command exits with
code 0 the final update is the completed update with progress exactly 100. -/
theorem progress_monotone_amended (label opId : String)
    (events : List StdEvent) (term : ProcTerm) :
    pairsOk (executeStandard label true opId events term).1 = true
  ∧ (∀ u ∈ (executeStandard label true opId events term).1,
       u.status = UpdStatus.running → u.progress < 100)
  ∧ (term = ProcTerm.close 0 →
       (executeStandard label true opId events term).1.getLast?
         = some ⟨opId, UpdStatus.completed, 100,
             label ++ " completed successfully", none⟩) := by
  have M := processEvents_master opId events
  have hpairs := runOk_pairsOk M.1
  have hmem := runOk_mem M.1
  cases term with
  | close ec =>
      obtain ⟨t, ht, hs⟩ := closeTerminal_shape opId label ec
        (processEvents true opId initState events).2
      have hterm : t.status ≠ UpdStatus.running := by
        rcases hs with h | h <;> simp [h]
      have hshape : (executeStandard label true opId events (ProcTerm.close ec)).1
          = (processEvents true opId initState events).1 ++ [t] := by
        unfold executeStandard
        dsimp only
        rw [ht]
      refine ⟨?_, ?_, ?_⟩
      · rw [hshape]
        exact pairsOkBy_concat (stepPairOk_terminal hterm) hpairs
      · rw [hshape]
        intro u hu hrunning
        rcases List.mem_append.mp hu with h | h
        · have := (hmem u h).2
          linarith
        · rcases List.mem_singleton.mp h with rfl
          exact absurd hrunning hterm
      · intro hec
        have hec' : ec = 0 := by
          injection hec
        subst hec'
        have hclose : closeTerminal true opId label 0
            (processEvents true opId initState events).2
            = [⟨opId, UpdStatus.completed, 100,
                label ++ " completed successfully", none⟩] := by
          unfold closeTerminal
          simp
        have ht2 : t = ⟨opId, UpdStatus.completed, 100,
            label ++ " completed successfully", none⟩ := by
          have := ht.symm.trans hclose
          exact (List.cons.injEq _ _ _ _).mp this |>.1
        rw [hshape, ht2]
        simp
  | spawnError msg =>
      have hterm : (⟨opId, UpdStatus.failed, 0,
          "Failed to start " ++ label ++ " process: " ++ msg, none⟩ :
            ProgressUpdate).status ≠ UpdStatus.running := by
        simp
      refine ⟨?_, ?_, ?_⟩
      · exact pairsOkBy_concat (stepPairOk_terminal hterm) hpairs
      · intro u hu hrunning
        rcases List.mem_append.mp hu with h | h
        · have := (hmem u h).2
          linarith
        · rcases List.mem_singleton.mp h with rfl
          exact absurd hrunning hterm
      · intro hec
        exact ProcTerm.noConfusion hec

/-- Witness for C8 amended at a concrete run with a phase transition and a
file-count recomputation. -/
theorem progress_monotone_amended_witness :
    pairsOk (executeStandard "Build" true "op"
      [StdEvent.out 2000 "CompileSwift foo\n", StdEvent.out 4000 "1 of 100 files\n"]
      (ProcTerm.close 0)).1 = true :=
  (progress_monotone_amended "Build" "op"
    [StdEvent.out 2000 "CompileSwift foo\n", StdEvent.out 4000 "1 of 100 files\n"]
    (ProcTerm.close 0)).1

/-- C1: on the xcpretty fallback path the invariant fails.  When the helper
throws synchronously, the catch block of executeWithXcpretty returns the
standard executor call from inside the promise executor without resolving, so
the fallback run happens (and emits its updates) but no Execution Result is
ever returned to the caller: the response component is none. -/
theorem xcpretty_fallback_drops_result :
    (executeXcodeCommand ["xcodebuild", "build"] "Build" true "op" true
      (XcprettyBehavior.syncThrow "xcpretty threw" [] (ProcTerm.close 0)) []
      (ProcTerm.close 0)).2 = none := rfl

/-- C9: the fallback path is not transparent to the caller.  On the
synchronous-throw fallback, executeWithXcpretty never resolves: the caller
receives no result at all (none), rather than a result of the same shape as
the direct path, whose result on the same process run is shown alongside. -/
theorem xcpretty_sync_throw_no_response :
    (executeWithXcpretty "Build" true "op"
      (XcprettyBehavior.syncThrow "xcpretty threw" [StdEvent.out 0 "ok\n"]
        (ProcTerm.close 0))).2 = none
  ∧ (executeStandard "Build" true "op" [StdEvent.out 0 "ok\n"]
      (ProcTerm.close 0)).2 = ⟨true, "ok\n", none⟩ := ⟨rfl, rfl⟩

/-- C10: when addXcodeParameters is given a platform and no explicit
destination and destination construction throws (simulator platform with
neither simulator name nor id), the error is caught and swallowed: no
-destination token is appended, no exception propagates (the function is
total and returns the command), and the extra arguments are still appended
after the other parameters. -/
theorem addXcodeParameters_swallows_invalid_target (command : List String)
    (params : XcodeParams) (p : XcodePlatform)
    (hplat : params.platform = some p) (hp : isSimulatorPlatform p = true)
    (hdest : optTruthy params.destination = false)
    (hname : optTruthy params.simulatorName = false)
    (hid : optTruthy params.simulatorId = false) :
    (∃ msg, constructDestinationString p params.simulatorName params.simulatorId
        (params.useLatestOS.getD true) none = Except.error msg)
  ∧ destPart params = []
  ∧ addXcodeParameters command params
      = command ++ wsPart params ++ schemePart params ++ configurationPart params
          ++ derivedPart params ++ extraPart params := by
  have hcds : constructDestinationString p params.simulatorName params.simulatorId
      (params.useLatestOS.getD true) none
      = Except.error ("Simulator name or ID is required for specific "
          ++ p.str ++ " operations") := by
    unfold constructDestinationString
    simp [hp, hname, hid]
  have hdp : destPart params = [] := by
    unfold destPart
    rw [if_neg (by simp [hdest]), hplat]
    dsimp only
    rw [hcds]
  refine ⟨⟨_, hcds⟩, hdp, ?_⟩
  unfold addXcodeParameters
  rw [hdp]
  simp

/-- Witness for C10 at a concrete parameter record with extra arguments. -/
theorem addXcodeParameters_swallows_invalid_target_witness :
    destPart (⟨none, none, some "App", none, none, some XcodePlatform.iOSSimulator, none, none, none, none, some ["-quiet"]⟩ : XcodeParams) = []
  ∧ addXcodeParameters ["xcodebuild"] (⟨none, none, some "App", none, none, some XcodePlatform.iOSSimulator, none, none, none, none, some ["-quiet"]⟩ : XcodeParams)
      = ["xcodebuild"]
        ++ wsPart (⟨none, none, some "App", none, none, some XcodePlatform.iOSSimulator, none, none, none, none, some ["-quiet"]⟩ : XcodeParams)
        ++ schemePart (⟨none, none, some "App", none, none, some XcodePlatform.iOSSimulator, none, none, none, none, some ["-quiet"]⟩ : XcodeParams)
        ++ configurationPart (⟨none, none, some "App", none, none, some XcodePlatform.iOSSimulator, none, none, none, none, some ["-quiet"]⟩ : XcodeParams)
        ++ derivedPart (⟨none, none, some "App", none, none, some XcodePlatform.iOSSimulator, none, none, none, none, some ["-quiet"]⟩ : XcodeParams)
        ++ extraPart (⟨none, none, some "App", none, none, some XcodePlatform.iOSSimulator, none, none, none, none, some ["-quiet"]⟩ : XcodeParams) :=
  ⟨(addXcodeParameters_swallows_invalid_target ["xcodebuild"] (⟨none, none, some "App", none, none, some XcodePlatform.iOSSimulator, none, none, none, none, some ["-quiet"]⟩ : XcodeParams) XcodePlatform.iOSSimulator rfl rfl rfl rfl rfl).2.1,
   (addXcodeParameters_swallows_invalid_target ["xcodebuild"] (⟨none, none, some "App", none, none, some XcodePlatform.iOSSimulator, none, none, none, none, some ["-quiet"]⟩ : XcodeParams) XcodePlatform.iOSSimulator rfl rfl rfl rfl rfl).2.2⟩
